import Mathlib

/-
Verification of the EKF core of the aruco-slam repository
(src/filters/extended_kalman_filter.py).

The Python module is shallowly embedded here over an arbitrary linear
ordered field `K` (exact arithmetic; the claims of this file are settled at
`K = ℚ` for concrete evaluation).  numpy 1-D arrays become `List K`,
numpy 2-D arrays become `List (List K)` (row lists), and the Python
dict `self.landmarks` becomes an insertion-ordered association list.
`np.linalg.norm` needs a square root, which `K` does not have; the
normalisation step therefore takes the square-root function `sq` as an
explicit parameter (instantiated with an exact rational square root in
the concrete evaluations).

The only exceptions the Python code can actually raise inside
`observe`/`update` are a `KeyError` from the `self.landmarks[idx]`
dict lookup in `parse_poses` and a `TypeError` from
`sparse.csr_matrix(None)` when the observation batch is empty; they
are modelled by the `PyErr` inductive.  `scipy.sparse.linalg.spsolve`
on a singular matrix does NOT raise: it warns and returns a non-finite
array.  In exact arithmetic the solve result is modelled as
`(det s)⁻¹ • adjugate s`, which for singular `s` degenerates (by the
field convention `0⁻¹ = 0`) to a junk zero matrix, mirroring "garbage
out, no exception".
-/

namespace ArucoSlam

/- ----- module-level constants (lines 16-25 of the source) ----- -/

def INITIAL_CAMERA_UNCERTAINTY (K : Type) [LinearOrderedField K] : K := 1 / 10

def INITIAL_LANDMARK_UNCERTAINTY (K : Type) [LinearOrderedField K] : K := 7 / 10

def R_UNCERTAINTY (K : Type) [LinearOrderedField K] : K := 9 / 10

def Q_UNCERTAINTY_CAM (K : Type) [LinearOrderedField K] : K := 3 / 10

def Q_UNCERTAINTY_LM (K : Type) [LinearOrderedField K] : K := 0

def CAM_DIMS : Nat := 7

def LM_DIMS : Nat := 3

def XYZ_DIMS : Nat := 3

/- ----- list-based linear algebra (numpy operations) ----- -/

section LinAlg

variable {K : Type} [LinearOrderedField K]

/-- numpy dot product of two 1-D arrays. -/
def dotL (a b : List K) : K := (List.zipWith (fun x y => x * y) a b).sum

/-- numpy elementwise sum of two 1-D arrays. -/
def addV (a b : List K) : List K := List.zipWith (fun x y => x + y) a b

/-- numpy elementwise difference of two 1-D arrays. -/
def subV (a b : List K) : List K := List.zipWith (fun x y => x - y) a b

/-- numpy sum of squares (the square of `np.linalg.norm`). -/
def sumSq (v : List K) : K := (v.map (fun x => x * x)).sum

/-- matrix @ vector. -/
def matVecL (m : List (List K)) (v : List K) : List K := m.map (fun r => dotL r v)

/-- matrix @ matrix. -/
def matMulL (a b : List (List K)) : List (List K) :=
  let bt := b.transpose
  a.map (fun r => bt.map (fun c => dotL r c))

/-- matrix + matrix. -/
def matAddL (a b : List (List K)) : List (List K) := List.zipWith addV a b

/-- matrix - matrix. -/
def matSubL (a b : List (List K)) : List (List K) := List.zipWith subV a b

/-- np.eye. -/
def eyeL (n : Nat) : List (List K) :=
  (List.range n).map (fun i => (List.range n).map (fun j => if i = j then (1 : K) else 0))

/-- scalar * matrix. -/
def smulL (c : K) (m : List (List K)) : List (List K) := m.map (List.map (fun x => c * x))

/-- Entry (i, j) of a row-list matrix (0 outside the stored rectangle). -/
def idxL (m : List (List K)) (i j : Nat) : K := (m.getD i []).getD j 0

/-- Remove index j from a list (used for minors of a determinant). -/
def dropIdx (l : List K) (j : Nat) : List K := l.take j ++ l.drop (j + 1)

/-- Laplace expansion of a determinant along the first row; the `Nat`
fuel keeps the recursion structural so the kernel can evaluate it. -/
def detAux : Nat → List (List K) → K
  | 0, _ => 1
  | fuel + 1, m =>
    match m with
    | [] => 1
    | r :: rs =>
        ((List.range r.length).map
          (fun j => (-1 : K) ^ j * r.getD j 0 *
            detAux fuel (rs.map (fun row => dropIdx row j)))).sum

/-- Determinant of a square row-list matrix. -/
def detL (m : List (List K)) : K := detAux m.length m

/-- Adjugate: entry (i, j) is (-1)^(i+j) times the minor obtained by
deleting row j and column i. -/
def adjugateL (m : List (List K)) : List (List K) :=
  let n := m.length
  (List.range n).map (fun i => (List.range n).map (fun j =>
    (-1 : K) ^ (i + j) * detL (dropIdx (m.map (fun row => dropIdx row i)) j)))

/-- Exact-arithmetic matrix inverse `(det m)⁻¹ • adjugate m`.  This is
both `np.linalg.inv(m)` (add_marker, line 241) and the exact value of
`sparse.linalg.spsolve(s, I)` (update, line 120) when `det m ≠ 0`.
When `det m = 0`, numpy raises / scipy returns non-finite junk without
raising; here the field convention `0⁻¹ = 0` yields a zero junk
matrix, preserving the fact that no exception reaches the calling code. -/
def matInvL (m : List (List K)) : List (List K) := smulL (detL m)⁻¹ (adjugateL m)

end LinAlg

/- ----- the measurement model (initialize_h, lines 264-314) ----- -/

section MeasModel

variable {K : Type} [LinearOrderedField K]

/-- Squared norm of the quaternion `[qx, qy, qz, qw]`. -/
def qSq (q : List K) : K :=
  q.getD 0 0 * q.getD 0 0 + q.getD 1 0 * q.getD 1 0 +
  q.getD 2 0 * q.getD 2 0 + q.getD 3 0 * q.getD 3 0

/-- Numerator of the quaternion rotation matrix: `nMat q / qSq q` is
`sp.Quaternion(qw, qx, qy, qz).to_rotation_matrix()` (sympy divides by
the squared norm, and scipy `Rotation.from_quat` normalises first,
which gives the identical rational function of `q`). -/
def nMat (q : List K) : List (List K) :=
  let qx := q.getD 0 0
  let qy := q.getD 1 0
  let qz := q.getD 2 0
  let qw := q.getD 3 0
  [[qw * qw + qx * qx - qy * qy - qz * qz, 2 * (qx * qy - qw * qz), 2 * (qx * qz + qw * qy)],
   [2 * (qx * qy + qw * qz), qw * qw - qx * qx + qy * qy - qz * qz, 2 * (qy * qz - qw * qx)],
   [2 * (qx * qz - qw * qy), 2 * (qy * qz + qw * qx), qw * qw - qx * qx - qy * qy + qz * qz]]

/-- Rotation matrix of a (not necessarily unit) quaternion, as the
rational function `nMat q / qSq q`. -/
def rotM (q : List K) : List (List K) := smulL (qSq q)⁻¹ (nMat q)

/-- Entrywise derivative of `nMat` with respect to qx. -/
def dNx (q : List K) : List (List K) :=
  let qx := q.getD 0 0
  let qy := q.getD 1 0
  let qz := q.getD 2 0
  let qw := q.getD 3 0
  [[2 * qx, 2 * qy, 2 * qz],
   [2 * qy, -(2 * qx), -(2 * qw)],
   [2 * qz, 2 * qw, -(2 * qx)]]

/-- Entrywise derivative of `nMat` with respect to qy. -/
def dNy (q : List K) : List (List K) :=
  let qx := q.getD 0 0
  let qy := q.getD 1 0
  let qz := q.getD 2 0
  let qw := q.getD 3 0
  [[-(2 * qy), 2 * qx, 2 * qw],
   [2 * qx, 2 * qy, 2 * qz],
   [-(2 * qw), 2 * qz, -(2 * qy)]]

/-- Entrywise derivative of `nMat` with respect to qz. -/
def dNz (q : List K) : List (List K) :=
  let qx := q.getD 0 0
  let qy := q.getD 1 0
  let qz := q.getD 2 0
  let qw := q.getD 3 0
  [[-(2 * qz), -(2 * qw), 2 * qx],
   [2 * qw, -(2 * qz), 2 * qy],
   [2 * qx, 2 * qy, 2 * qz]]

/-- Entrywise derivative of `nMat` with respect to qw. -/
def dNw (q : List K) : List (List K) :=
  let qx := q.getD 0 0
  let qy := q.getD 1 0
  let qz := q.getD 2 0
  let qw := q.getD 3 0
  [[2 * qw, -(2 * qz), 2 * qy],
   [2 * qz, 2 * qw, -(2 * qx)],
   [-(2 * qy), 2 * qx, 2 * qw]]

/-- Column dot product `sum_j m[j][i] * d[j]` over the three rows of a
3x3 matrix (i.e. row i of the transpose applied to d). -/
def colDot3 (m : List (List K)) (i : Nat) (d : List K) : K :=
  idxL m 0 i * d.getD 0 0 + idxL m 1 i * d.getD 1 0 + idxL m 2 i * d.getD 2 0

/-- The measurement function `h` generated by initialize_h: on the
10-vector `[x_mc, y_mc, z_mc, qx, qy, qz, qw, x_ml, y_ml, z_ml]` it
computes `rot_cm @ (xyz_ml - xyz_mc)` with
`rot_cm = rot_mc.inv()` the matrix inverse of the quaternion rotation
matrix. -/
def hFun (v : List K) : List K :=
  let c := v.take 3
  let q := (v.drop 3).take 4
  let l := (v.drop 7).take 3
  matVecL (matInvL (rotM q)) (subV l c)

/-- The Jacobian `dh` of `hFun` with respect to its 10 inputs (3 rows,
10 columns), written in closed form.  Since the rotation matrix
`R = nMat q / qSq q` is orthogonal with determinant 1 as a rational
function of `q`, its matrix inverse equals its transpose
`fun i j => nMat q j i / qSq q`; the columns below are the exact
partial derivatives of `hFun = Rinv (l - c)`:
camera translation columns `-Rinv`, quaternion column k
`(dN_k transposed @ d) / qSq - (nMat transposed @ d) * 2 q_k / qSq^2`
with `d = l - c`, landmark columns `Rinv`.  This is the same rational
function that the sympy call `function.jacobian(variables)` produces in
initialize_h. -/
def dhFun (v : List K) : List (List K) :=
  let c := v.take 3
  let q := (v.drop 3).take 4
  let l := (v.drop 7).take 3
  let d := subV l c
  let s := qSq q
  let n := nMat q
  let qcol := fun (dn : List (List K)) (k : Nat) (i : Nat) =>
    colDot3 dn i d / s - colDot3 n i d * (2 * q.getD k 0) / (s * s)
  (List.range 3).map (fun i =>
    ((List.range 3).map fun j => -(idxL n j i) / s)
    ++ [qcol (dNx q) 0 i, qcol (dNy q) 1 i, qcol (dNz q) 2 i, qcol (dNw q) 3 i]
    ++ ((List.range 3).map fun j => idxL n j i / s))

end MeasModel

/- ----- the EKF class ----- -/

/-- The Python exceptions that the body of `observe`/`update` can
actually raise: a dict `KeyError` from `self.landmarks[idx]` in
parse_poses (line 156), and the `TypeError` from
`sparse.csr_matrix(None)` (line 112) when the observation loop never
ran.  The repository defines no exception classes of its own. -/
inductive PyErr where
  | keyError
  | typeError
deriving DecidableEq

/-- The mutable attributes of the Python EKF object (position/rotation
caches set in __init__ are never read back and are omitted). -/
structure EKF (K : Type) where
  state : List K
  uncertainty : List (List K)
  num_landmarks : Nat
  landmarks : List (Int × Nat)
deriving DecidableEq

section EKFOps

variable {K : Type} [LinearOrderedField K]

/-- __init__ (lines 31-47). -/
def EKF.mk0 (initial_camera_pose : List K) : EKF K :=
  { state := initial_camera_pose
    uncertainty := smulL (INITIAL_CAMERA_UNCERTAINTY K) (eyeL CAM_DIMS)
    num_landmarks := 0
    landmarks := [] }

/-- get_poses (lines 75-80); the landmark block is reshaped into rows
of three. -/
def chunksOf3 : Nat → List K → List (List K)
  | 0, _ => []
  | _ + 1, [] => []
  | fuel + 1, l => l.take 3 :: chunksOf3 fuel (l.drop 3)

def EKF.get_poses (e : EKF K) : List K × List (List K) :=
  (e.state.take CAM_DIMS, chunksOf3 e.state.length (e.state.drop CAM_DIMS))

/-- add_marker (lines 215-262).  The covariance growth composes the
three steps of the code — `new = np.eye(n_dims)`, then
`new[-3:, -3:] *= u` (turning the bottom-right identity block into
`u * I`), then `new[:n-3, :n-3] = old` — into one entry formula. -/
def EKF.add_marker (e : EKF K) (idx : Int) (pose : List K) (uncertainity : Option K) :
    EKF K :=
  let num' := e.num_landmarks + 1
  let camera_pose := e.state.take CAM_DIMS
  let camera_translation := camera_pose.take XYZ_DIMS
  let camera_rotation := camera_pose.drop XYZ_DIMS
  let rot_cm := matInvL (rotM camera_rotation)
  let t_ml := addV (matVecL rot_cm (pose.take XYZ_DIMS)) camera_translation
  let n_dims := LM_DIMS * num' + CAM_DIMS
  let u := uncertainity.getD (INITIAL_LANDMARK_UNCERTAINTY K)
  let newU := (List.range n_dims).map (fun i => (List.range n_dims).map (fun j =>
    if i < n_dims - LM_DIMS ∧ j < n_dims - LM_DIMS then idxL e.uncertainty i j
    else if i = j then u else 0))
  { state := e.state ++ t_ml
    uncertainty := newU
    num_landmarks := num'
    landmarks := e.landmarks ++ [(idx, e.num_landmarks)] }

/-- The process-noise matrix q built by predict (lines 90-95):
`Q_UNCERTAINTY_CAM * I` on the 7x7 camera block,
`Q_UNCERTAINTY_LM * I` (i.e. zero) on the landmark block, zero in the
off-diagonal cross blocks. -/
def qMat (K : Type) [LinearOrderedField K] (num_landmarks : Nat) : List (List K) :=
  let q_dims := LM_DIMS * num_landmarks + CAM_DIMS
  (List.range q_dims).map (fun i => (List.range q_dims).map (fun j =>
    if i < CAM_DIMS ∧ j < CAM_DIMS then
      (if i = j then Q_UNCERTAINTY_CAM K else 0)
    else
      (if i = j ∧ CAM_DIMS ≤ i ∧ CAM_DIMS ≤ j then Q_UNCERTAINTY_LM K else 0)))

/-- predict (lines 86-96): no state change, covariance += q. -/
def EKF.predict (e : EKF K) : EKF K :=
  { e with uncertainty := matAddL e.uncertainty (qMat K e.num_landmarks) }

/-- landmark_dh (lines 178-213): place the 3x7 camera block and the
3x3 landmark block of the pointwise Jacobian into a
3 x (3 * num_landmarks + 7) row-block that is zero elsewhere. -/
def EKF.landmark_dh (e : EKF K) (index : Nat) : List (List K) :=
  let cam_state := e.state.take CAM_DIMS
  let beginning_index := LM_DIMS * index + CAM_DIMS
  let landmark_state := (e.state.drop beginning_index).take LM_DIMS
  let jacobian := dhFun (cam_state ++ landmark_state)
  jacobian.map (fun jrow =>
    jrow.take CAM_DIMS
      ++ List.replicate (LM_DIMS * index) (0 : K)
      ++ jrow.drop CAM_DIMS
      ++ List.replicate (LM_DIMS * (e.num_landmarks - index - 1)) (0 : K))

/-- parse_poses (lines 134-176): left-to-right loop over
`zip(ids, poses)`, stacking observed translations z, predictions h and
Jacobian row-blocks dh; the dict lookup `self.landmarks[idx]` raises
KeyError at the first unregistered id.  The accumulator starts from
empty stacks, standing for the `z = h = dh = None` initialisation. -/
def EKF.parseStep (e : EKF K) (acc : List K × List K × List (List K))
    (ip : Int × List K) : Except PyErr (List K × List K × List (List K)) :=
  match e.landmarks.lookup ip.1 with
  | none => .error .keyError
  | some index =>
    let jacobian_row := e.landmark_dh index
    let cam_state := e.state.take CAM_DIMS
    let state_index := LM_DIMS * index + CAM_DIMS
    let landmark_state := (e.state.drop state_index).take LM_DIMS
    let h_row := hFun (cam_state ++ landmark_state)
    .ok (acc.1 ++ ip.2.take XYZ_DIMS, acc.2.1 ++ h_row, acc.2.2 ++ jacobian_row)

def EKF.parse_poses (e : EKF K) (ids : List Int) (poses : List (List K)) :
    Except PyErr (List K × List K × List (List K)) :=
  (ids.zip poses).foldlM e.parseStep ([], [], [])

/-- The quaternion renormalisation of update (lines 125-128):
`state[3:7] /= np.linalg.norm(state[3:7])`, with the square root
supplied by `sq`. -/
def normalizeQuat (sq : K → K) (st : List K) : List K :=
  let v := (st.drop XYZ_DIMS).take (CAM_DIMS - XYZ_DIMS)
  let nv := sq (sumSq v)
  st.take XYZ_DIMS ++ v.map (fun x => x / nv) ++ st.drop CAM_DIMS

/-- update, lines 110-132, up to but not including the quaternion
renormalisation: returns the corrected state (pre-normalisation) and
the updated covariance.  When the observation loop never ran
(`zip(ids, poses)` empty) `sparse.csr_matrix(None)` raises TypeError.
The solve `spsolve(s, I)` is `matInvL s` (see there). -/
def EKF.updateCore (e : EKF K) (ids : List Int) (poses : List (List K)) :
    Except PyErr (List K × List (List K)) := do
  let zhd ← e.parse_poses ids poses
  if (ids.zip poses).isEmpty then .error .typeError
  else
    let z := zhd.1
    let h := zhd.2.1
    let dh := zhd.2.2
    let P := e.uncertainty
    let r := smulL (R_UNCERTAINTY K) (eyeL dh.length)
    let s := matAddL (matMulL (matMulL dh P) dh.transpose) r
    let s_inv := matInvL s
    let kalman_gain := matMulL (matMulL P dh.transpose) s_inv
    let innovation := matVecL kalman_gain (subV z h)
    let st1 := addV e.state innovation
    let ident := eyeL (LM_DIMS * e.num_landmarks + CAM_DIMS)
    let P' := matMulL (matSubL ident (matMulL kalman_gain dh)) P
    .ok (st1, P')

/-- update (lines 98-132): the core correction followed by the
quaternion renormalisation. -/
def EKF.update (sq : K → K) (e : EKF K) (ids : List Int) (poses : List (List K)) :
    Except PyErr (EKF K) :=
  (e.updateCore ids poses).map (fun sp =>
    { e with state := normalizeQuat sq sp.1, uncertainty := sp.2 })

/-- observe (lines 49-73): register unseen markers in order, predict,
update.  The docstring of the Python method promises to return
`(camera_pose, marker_poses)` but the body has no return statement, so
the caller receives None: the second component of the result is that
returned value, always `none`. -/
def EKF.registerStep (acc : EKF K) (ip : Int × List K) : EKF K :=
  if (acc.landmarks.lookup ip.1).isSome then acc
  else acc.add_marker ip.1 ip.2 none

def EKF.observe (sq : K → K) (e : EKF K) (ids : List Int) (poses : List (List K)) :
    Except PyErr (EKF K × Option (List K × List (List K))) :=
  (((ids.zip poses).foldl EKF.registerStep e).predict.update sq ids poses).map
    (fun e3 => (e3, none))

/-- The pre-normalisation corrected state of the full observe
pipeline, when it succeeds: register, predict, then the update core
before the quaternion renormalisation. -/
def EKF.preNormState (sq : K → K) (e : EKF K) (ids : List Int) (poses : List (List K)) :
    Option (List K) :=
  ((((ids.zip poses).foldl EKF.registerStep e).predict.updateCore ids poses).map
    Prod.fst).toOption

/-- The innovation covariance s = dh P dh^T + r that update hands to
the sparse solve, exposed for the claims about solver failure. -/
def EKF.innovCovOf (e : EKF K) (ids : List Int) (poses : List (List K)) :
    Option (List (List K)) :=
  ((e.parse_poses ids poses).map (fun zhd =>
    matAddL (matMulL (matMulL zhd.2.2 e.uncertainty) zhd.2.2.transpose)
      (smulL (R_UNCERTAINTY K) (eyeL zhd.2.2.length)))).toOption

/-- Well-formedness: the stored dimensions agree (7 + 3N state
entries, square covariance of matching size). -/
def EKF.wf (e : EKF K) : Prop :=
  e.state.length = LM_DIMS * e.num_landmarks + CAM_DIMS ∧
  e.uncertainty.length = LM_DIMS * e.num_landmarks + CAM_DIMS ∧
  ∀ row ∈ e.uncertainty, row.length = LM_DIMS * e.num_landmarks + CAM_DIMS

instance (e : EKF K) : Decidable e.wf := by
  unfold EKF.wf
  exact inferInstance

end EKFOps

/- ----- concrete instances for evaluation ----- -/

/-- Exact square root on the rationals (correct whenever the argument
is a square of a rational, which is the case at every concrete
evaluation below; plays the role of the floating np.sqrt). -/
def ratSqrt (x : ℚ) : ℚ := (Nat.sqrt x.num.toNat : ℚ) / (Nat.sqrt x.den : ℚ)

/-- A fresh filter at the origin with identity orientation, the
initial pose used by run_slam.py. -/
def ekf0 : EKF ℚ := EKF.mk0 [0, 0, 0, 0, 0, 0, 1]

/-- A marker observation one unit in front of the camera (translation
(0,0,1), identity orientation). -/
def pose1 : List ℚ := [0, 0, 1, 0, 0, 0, 1]

/- ----- Matrix-level mirror of the covariance formulas -----
The predict/update covariance arithmetic of lines 86-96 and 110-132,
written over Mathlib matrices so that the algebra-of-update claims
(symmetry preservation, permutation invariance) can be stated for every
dimension at once.  `sInv` stands for the result of the
`spsolve(s, I)` call and is characterised by `s * sInv = 1`. -/

section MatrixMirror

variable {K : Type} [LinearOrderedField K] {m n : ℕ}

/-- The process noise q of predict as a Mathlib matrix. -/
def processNoiseM (K : Type) [LinearOrderedField K] (n : ℕ) : Matrix (Fin n) (Fin n) K :=
  Matrix.of fun i j =>
    if i = j then
      (if (i : ℕ) < CAM_DIMS then Q_UNCERTAINTY_CAM K else Q_UNCERTAINTY_LM K)
    else 0

/-- Covariance after predict: P + q. -/
def predictCovM (P : Matrix (Fin n) (Fin n) K) : Matrix (Fin n) (Fin n) K :=
  P + processNoiseM K n

/-- Innovation covariance s = dh P dh^T + 0.9 I (line 118). -/
def innovCovM (P : Matrix (Fin n) (Fin n) K) (dh : Matrix (Fin m) (Fin n) K) :
    Matrix (Fin m) (Fin m) K :=
  dh * P * dh.transpose + R_UNCERTAINTY K • 1

/-- Kalman gain K = P dh^T sInv (line 121). -/
def kalmanGainM (P : Matrix (Fin n) (Fin n) K) (dh : Matrix (Fin m) (Fin n) K)
    (sInv : Matrix (Fin m) (Fin m) K) : Matrix (Fin n) (Fin m) K :=
  P * dh.transpose * sInv

/-- State correction K (z - h) (line 122). -/
def stateDeltaM (P : Matrix (Fin n) (Fin n) K) (dh : Matrix (Fin m) (Fin n) K)
    (sInv : Matrix (Fin m) (Fin m) K) (z h : Fin m → K) : Fin n → K :=
  (kalmanGainM P dh sInv).mulVec (z - h)

/-- Covariance after update: (I - K dh) P (line 132). -/
def updateCovM (P : Matrix (Fin n) (Fin n) K) (dh : Matrix (Fin m) (Fin n) K)
    (sInv : Matrix (Fin m) (Fin m) K) : Matrix (Fin n) (Fin n) K :=
  (1 - kalmanGainM P dh sInv * dh) * P

end MatrixMirror

/- ----- statements of the frame-effect claims, as reusable
predicates (so that the witnesses can restate them concisely) ----- -/

/-- What claim C3 asserts of a single add_marker call on a filter with
n = 3 * num_landmarks + 7 current dimensions: the state grows by
exactly the 3 scalars `matInvL (rotM q) @ p[:3] + camera_translation`,
the covariance grows by exactly 3 rows and 3 columns, pre-existing
entries are untouched, the new off-diagonal entries are zero and the
new diagonal block carries the caller-supplied uncertainty or the
fixed default 7/10. -/
def addMarkerSpec (K : Type) [LinearOrderedField K] (e : EKF K) (idx : Int)
    (pose : List K) (u : Option K) : Prop :=
  let n := LM_DIMS * e.num_landmarks + CAM_DIMS
  let e' := e.add_marker idx pose u
  e'.state = e.state ++
      addV (matVecL (matInvL (rotM ((e.state.take CAM_DIMS).drop XYZ_DIMS)))
        (pose.take XYZ_DIMS)) ((e.state.take CAM_DIMS).take XYZ_DIMS) ∧
  e'.state.length = e.state.length + 3 ∧
  e'.uncertainty.length = n + 3 ∧
  (∀ row ∈ e'.uncertainty, row.length = n + 3) ∧
  (∀ i j, i < n → j < n → idxL e'.uncertainty i j = idxL e.uncertainty i j) ∧
  (∀ i j, i < n + 3 → j < n + 3 → (n ≤ i ∨ n ≤ j) → i ≠ j →
    idxL e'.uncertainty i j = 0) ∧
  (∀ i, n ≤ i → i < n + 3 →
    idxL e'.uncertainty i i = u.getD (INITIAL_LANDMARK_UNCERTAINTY K))

/-- What claim C5 asserts of a single predict call on a filter with
n = 3 * num_landmarks + 7 current dimensions: the state is unchanged
and the covariance changes exactly by adding the block-diagonal
process noise q (3/10 times identity on the 7x7 camera block, 0 times
identity on the landmark blocks). -/
def predictSpec (K : Type) [LinearOrderedField K] (e : EKF K) : Prop :=
  let n := LM_DIMS * e.num_landmarks + CAM_DIMS
  e.predict.state = e.state ∧
  e.predict.uncertainty = matAddL e.uncertainty (qMat K e.num_landmarks) ∧
  e.predict.uncertainty.length = n ∧
  (∀ i j, i < n → j < n →
    idxL e.predict.uncertainty i j =
      idxL e.uncertainty i j +
        (if i = j then
          (if i < CAM_DIMS then Q_UNCERTAINTY_CAM K else Q_UNCERTAINTY_LM K)
         else 0))

/- ===== theorems ===== -/

/- The Batteries library marks the rational field operations
irreducible, which blocks `decide` from evaluating the embedded
pipeline on concrete rational inputs; restore the default
reducibility for them. -/

set_option allowUnsafeReducibility true in
attribute [semireducible] Rat.mul

set_option allowUnsafeReducibility true in
attribute [semireducible] Rat.add

set_option allowUnsafeReducibility true in
attribute [semireducible] Rat.sub

set_option allowUnsafeReducibility true in
attribute [semireducible] Rat.inv

/-- Decidable equality of results, for evaluating the pipeline in
closed statements. -/
instance {ε α : Type} [DecidableEq ε] [DecidableEq α] : DecidableEq (Except ε α) :=
  fun a b =>
    match a, b with
    | .error e1, .error e2 => decidable_of_iff (e1 = e2) (by simp)
    | .error _, .ok _ => isFalse (by simp)
    | .ok _, .error _ => isFalse (by simp)
    | .ok x, .ok y => decidable_of_iff (x = y) (by simp)

section Helpers

variable {K : Type} [LinearOrderedField K]

theorem zip_map_fst_snd {α β : Type} (l : List (α × β)) :
    (l.map Prod.fst).zip (l.map Prod.snd) = l := by
  induction l with
  | nil => rfl
  | cons hd tl ih => simp [List.zip, ih]

theorem except_bind_error {ε α β : Type} (er : ε) (f : α → Except ε β) :
    (Except.error er >>= f) = Except.error er := rfl

theorem except_bind_ok {ε α β : Type} (a : α) (f : α → Except ε β) :
    (Except.ok a >>= f) = f a := rfl

theorem foldlM_parse_err (e : EKF K) (l : List (Int × List K)) :
    ∀ (acc : List K × List K × List (List K)) (er : PyErr),
      (l.foldlM e.parseStep acc = .error er) ↔
      (er = .keyError ∧ ∃ ip ∈ l, e.landmarks.lookup ip.1 = none) := by
  induction l with
  | nil =>
    intro acc er
    constructor
    · intro h
      simp [List.foldlM, pure, Except.pure] at h
    · rintro ⟨-, ip, hmem, -⟩
      cases hmem
  | cons hd tl ih =>
    intro acc er
    rcases hlk : e.landmarks.lookup hd.1 with _ | index
    · have hstep : e.parseStep acc hd = .error .keyError := by
        unfold EKF.parseStep
        rw [hlk]
      constructor
      · intro h
        rw [List.foldlM_cons, hstep, except_bind_error] at h
        cases h
        exact ⟨rfl, hd, List.mem_cons_self _ _, hlk⟩
      · rintro ⟨rfl, -⟩
        rw [List.foldlM_cons, hstep, except_bind_error]
    · have hstep : ∃ acc', e.parseStep acc hd = .ok acc' := by
        unfold EKF.parseStep
        rw [hlk]
        exact ⟨_, rfl⟩
      rcases hstep with ⟨acc', hstep⟩
      rw [List.foldlM_cons, hstep, except_bind_ok, ih]
      constructor
      · rintro ⟨rfl, ip, hmem, hnone⟩
        exact ⟨rfl, ip, List.mem_cons_of_mem _ hmem, hnone⟩
      · rintro ⟨rfl, ip, hmem, hnone⟩
        rcases List.mem_cons.mp hmem with rfl | hmem'
        · rw [hlk] at hnone
          cases hnone
        · exact ⟨rfl, ip, hmem', hnone⟩

theorem parse_poses_err_iff (e : EKF K) (ids : List Int) (poses : List (List K))
    (er : PyErr) :
    e.parse_poses ids poses = .error er ↔
      (er = .keyError ∧ ∃ ip ∈ ids.zip poses, e.landmarks.lookup ip.1 = none) := by
  unfold EKF.parse_poses
  exact foldlM_parse_err e (ids.zip poses) ([], [], []) er

theorem parse_poses_ok_of_registered (e : EKF K) (ids : List Int) (poses : List (List K))
    (hreg : ∀ ip ∈ ids.zip poses, (e.landmarks.lookup ip.1).isSome) :
    ∃ zhd, e.parse_poses ids poses = .ok zhd := by
  rcases hp : e.parse_poses ids poses with er | zhd
  · rw [parse_poses_err_iff] at hp
    rcases hp.2 with ⟨ip, hmem, hnone⟩
    have := hreg ip hmem
    rw [hnone] at this
    simp at this
  · exact ⟨zhd, rfl⟩

theorem except_map_error_iff {ε α β : Type} (f : α → β) (x : Except ε α) (er : ε) :
    x.map f = .error er ↔ x = .error er := by
  cases x <;> simp [Except.map]

theorem updateCore_keyError_iff (e : EKF K) (ids : List Int) (poses : List (List K)) :
    e.updateCore ids poses = .error .keyError ↔
      ∃ ip ∈ ids.zip poses, e.landmarks.lookup ip.1 = none := by
  unfold EKF.updateCore
  rcases hp : e.parse_poses ids poses with er | zhd
  · rw [except_bind_error]
    rw [parse_poses_err_iff] at hp
    constructor
    · intro h
      cases h
      exact hp.2
    · intro hex
      rw [hp.1]
  · rw [except_bind_ok]
    constructor
    · intro h
      split_ifs at h <;> simp at h
    · intro hex
      have := (parse_poses_err_iff e ids poses .keyError).mpr ⟨rfl, hex⟩
      rw [hp] at this
      cases this

end Helpers

section ClaimC1

/-- C1: the claim says every successful `observe(ids, poses)` call
returns the pair (updated camera pose, updated landmark poses).  The
body of `EKF.observe` has no return statement, so Python returns None,
although the docstring of the method (lines 60-63) promises the pair:
the code contradicts its own documentation.  Evaluated at the failing
input — a fresh filter at the origin observing marker 0 one unit ahead
— observe completes without error and its returned value (the second
component of the embedded result) is `none` instead of the pose
pair. -/
theorem C1_observe_returns_none :
    (EKF.observe ratSqrt ekf0 [0] [pose1]).toOption.map Prod.snd = some none := by
  decide

end ClaimC1

section ClaimC2

/-- C2 counterexample: the claim says `observe([1,2], [pose1])`
(mismatched lengths) must fail with InvalidObservationError and leave
state and covariance unmodified.  In the code `zip(ids, poses)`
silently truncates, no length check exists anywhere, and no exception
class InvalidObservationError exists in the repository: the call
completes without error and the state vector grows from 7 to 10
entries (marker 1 is registered). -/
theorem C2_counterexample :
    (EKF.observe ratSqrt ekf0 [1, 2] [pose1]).isOk = true ∧
    (EKF.observe ratSqrt ekf0 [1, 2] [pose1]).toOption.map (fun r => r.1.state.length) =
      some 10 ∧
    ekf0.state.length = 7 := by
  decide

/-- C2 amended: a call `observe(ids, poses)` with different lengths
raises nothing; it behaves exactly as the call on the first
min(len(ids), len(poses)) aligned pairs, because every loop in
observe, update and parse_poses iterates over `zip(ids, poses)`. -/
theorem C2_observe_truncates_to_zip (K : Type) [LinearOrderedField K] (sq : K → K)
    (e : EKF K) (ids : List Int) (poses : List (List K)) :
    e.observe sq ids poses =
      e.observe sq ((ids.zip poses).map Prod.fst) ((ids.zip poses).map Prod.snd) := by
  unfold EKF.observe EKF.update EKF.updateCore EKF.parse_poses
  rw [zip_map_fst_snd]

end ClaimC2

section ClaimC7

/-- C7 counterexample: the claim says update fails whenever SOME id in
`ids` is unregistered.  With marker 1 registered and marker 2 unknown,
`update([1, 2], [pose1])` succeeds, because `zip` truncates the
unmatched id 2 away before the registry is ever consulted. -/
theorem C7_counterexample :
    ((ekf0.add_marker 1 pose1 none).landmarks.lookup 2 = none) ∧
    ((ekf0.add_marker 1 pose1 none).update ratSqrt [1, 2] [pose1]).isOk = true := by
  decide

/-- C7 amended: `update(ids, poses)` fails with the registry lookup
error (the KeyError of `self.landmarks[idx]`, the code analogue of the
UnknownMarkerError named by the spec) exactly when some id among the
first min(len(ids), len(poses)) zipped pairs is unregistered; ids
beyond the zip truncation point are never checked. -/
theorem C7_update_unknown_marker_iff (K : Type) [LinearOrderedField K] (sq : K → K)
    (e : EKF K) (ids : List Int) (poses : List (List K)) :
    e.update sq ids poses = .error .keyError ↔
      ∃ ip ∈ ids.zip poses, e.landmarks.lookup ip.1 = none := by
  unfold EKF.update
  rw [except_map_error_iff]
  exact updateCore_keyError_iff e ids poses

end ClaimC7

section ClaimC8

set_option maxRecDepth 100000 in
/-- C8 counterexample: the claim says a singular innovation covariance
must surface as NumericalInstabilityError.  No such class exists and
update never checks the solve result.  Reachable through the public
API: registering marker 1 with the caller-supplied uncertainty -7/5
makes the innovation covariance of the next update singular
(determinant exactly 0), yet `update([1], [pose1])` completes without
raising; the junk solve output is silently written into the state and
covariance. -/
theorem C8_counterexample :
    ((ekf0.add_marker 1 pose1 (some (-(7 / 5)))).innovCovOf [1] [pose1]).map detL =
      some 0 ∧
    ((ekf0.add_marker 1 pose1 (some (-(7 / 5)))).update ratSqrt [1] [pose1]).isOk =
      true := by
  decide

/-- C8 amended: update never raises on numerical trouble.  Whenever
every zipped id is registered and the batch is non-empty, update
returns normally — no matter whether the innovation covariance is
singular — so non-finite solver output (modelled here by the junk
value of `matInvL` at determinant zero) flows into the state and
covariance unchecked. -/
theorem C8_update_never_raises (K : Type) [LinearOrderedField K] (sq : K → K)
    (e : EKF K) (ids : List Int) (poses : List (List K))
    (hreg : ∀ ip ∈ ids.zip poses, (e.landmarks.lookup ip.1).isSome)
    (hne : (ids.zip poses).isEmpty = false) :
    (e.update sq ids poses).isOk = true := by
  rcases parse_poses_ok_of_registered e ids poses hreg with ⟨zhd, hp⟩
  unfold EKF.update EKF.updateCore
  rw [hp, except_bind_ok, hne]
  rfl

/-- C8 amended, witness: at the concrete singular-covariance input the
hypotheses hold and update indeed returns normally. -/
theorem C8_update_never_raises_witness :
    (∀ ip ∈ ([1, 2] : List Int).zip [pose1],
      (((ekf0.add_marker 1 pose1 (some (-(7 / 5)))).landmarks.lookup ip.1).isSome)) ∧
    ((([1, 2] : List Int).zip [pose1]).isEmpty = false) ∧
    ((ekf0.add_marker 1 pose1 (some (-(7 / 5)))).update ratSqrt [1, 2] [pose1]).isOk =
      true :=
  ⟨by decide, by decide,
    C8_update_never_raises ℚ ratSqrt (ekf0.add_marker 1 pose1 (some (-(7 / 5))))
      [1, 2] [pose1] (by decide) (by decide)⟩

end ClaimC8

section IndexingHelpers

variable {K : Type} [LinearOrderedField K]

theorem getD_map_range {α : Type} (f : ℕ → α) (n i : ℕ) (d : α) (hi : i < n) :
    ((List.range n).map f).getD i d = f i := by
  rw [List.getD_eq_getElem?_getD, List.getElem?_map, List.getElem?_range hi]
  rfl

theorem idxL_grid (g : ℕ → ℕ → K) (n i j : ℕ) (hi : i < n) (hj : j < n) :
    idxL ((List.range n).map (fun i => (List.range n).map (fun j => g i j))) i j =
      g i j := by
  unfold idxL
  rw [getD_map_range _ _ _ _ hi, getD_map_range _ _ _ _ hj]

theorem getD_zipWith {α β γ : Type} (f : α → β → γ) (a : List α) (b : List β)
    (i : ℕ) (d1 : α) (d2 : β) (d3 : γ) (ha : i < a.length) (hb : i < b.length) :
    (List.zipWith f a b).getD i d3 = f (a.getD i d1) (b.getD i d2) := by
  induction a generalizing b i with
  | nil => cases ha
  | cons x xs ih =>
    cases b with
    | nil => cases hb
    | cons y ys =>
      cases i with
      | zero => rfl
      | succ k =>
        simp only [List.zipWith_cons_cons, List.getD_cons_succ]
        exact ih ys k (by simpa using ha) (by simpa using hb)

theorem getD_mem_of_lt {α : Type} (l : List α) (i : ℕ) (d : α) (hi : i < l.length) :
    l.getD i d ∈ l := by
  rw [List.getD_eq_getElem?_getD, List.getElem?_eq_getElem hi]
  exact List.getElem_mem hi

theorem length_nMat (q : List K) : (nMat q).length = 3 := rfl

theorem length_smulL (c : K) (m : List (List K)) : (smulL c m).length = m.length :=
  List.length_map m _

theorem length_adjugateL (m : List (List K)) : (adjugateL m).length = m.length := by
  unfold adjugateL
  rw [List.length_map, List.length_range]

theorem length_matInvL (m : List (List K)) : (matInvL m).length = m.length := by
  unfold matInvL
  rw [length_smulL, length_adjugateL]

theorem length_matVecL (m : List (List K)) (v : List K) :
    (matVecL m v).length = m.length :=
  List.length_map m _

theorem length_addV (a b : List K) : (addV a b).length = min a.length b.length :=
  List.length_zipWith _ a b

end IndexingHelpers

section ClaimC3

/-- C3: the first registration of a marker grows the state by exactly
the 3 scalars `R_inv @ p[:3] + camera_translation` (with R_inv the
matrix inverse of the rotation of the current camera quaternion),
grows the covariance by exactly 3 rows and 3 columns, leaves every
pre-existing covariance entry unchanged, zeroes the new off-diagonal
entries, and puts the caller-supplied uncertainty (or the fixed
default 7/10) times identity in the new 3x3 diagonal block. -/
theorem C3_add_marker_growth (K : Type) [LinearOrderedField K] (e : EKF K)
    (idx : Int) (pose : List K) (u : Option K) (hwf : e.wf) :
    addMarkerSpec K e idx pose u := by
  obtain ⟨hs, hu, hrows⟩ := hwf
  have h3 : 3 ≤ e.state.length := by
    rw [hs]
    simp only [LM_DIMS, CAM_DIMS]
    omega
  have hnd : LM_DIMS * (e.num_landmarks + 1) + CAM_DIMS =
      LM_DIMS * e.num_landmarks + CAM_DIMS + 3 := by
    simp only [LM_DIMS, CAM_DIMS]
    ring
  have hsub : LM_DIMS * (e.num_landmarks + 1) + CAM_DIMS - LM_DIMS =
      LM_DIMS * e.num_landmarks + CAM_DIMS := by
    simp only [LM_DIMS, CAM_DIMS]
    omega
  unfold addMarkerSpec
  refine ⟨rfl, ?_, ?_, ?_, ?_, ?_, ?_⟩
  · show (e.state ++ _).length = _
    rw [List.length_append]
    congr 1
    rw [length_addV, length_matVecL, length_matInvL]
    unfold rotM
    rw [length_smulL, length_nMat, List.length_take, List.length_take]
    simp only [XYZ_DIMS, CAM_DIMS]
    omega
  · show ((List.range _).map _).length = _
    rw [List.length_map, List.length_range, hnd]
  · intro row hrow
    show _ = _
    simp only [EKF.add_marker, List.mem_map] at hrow
    obtain ⟨i, -, rfl⟩ := hrow
    rw [List.length_map, List.length_range, hnd]
  · intro i j hi hj
    show idxL ((List.range _).map _) i j = _
    rw [idxL_grid _ _ _ _ (by omega) (by omega), hsub, if_pos ⟨hi, hj⟩]
  · intro i j hi hj hout hne
    show idxL ((List.range _).map _) i j = _
    rw [idxL_grid _ _ _ _ (by omega) (by omega), hsub, if_neg (by omega),
      if_neg hne]
  · intro i hge hlt
    show idxL ((List.range _).map _) i i = _
    rw [idxL_grid _ _ _ _ (by omega) (by omega), hsub, if_neg (by omega),
      if_pos rfl]

/-- C3 witness: the specification holds concretely for registering
marker 5 on the fresh filter. -/
theorem C3_add_marker_growth_witness :
    ekf0.wf ∧ addMarkerSpec ℚ ekf0 5 pose1 none :=
  ⟨by decide, C3_add_marker_growth ℚ ekf0 5 pose1 none (by decide)⟩

end ClaimC3

section ClaimC5

/-- C5: predict leaves the state vector unchanged and changes the
covariance exactly by adding the block-diagonal process noise matrix:
3/10 times identity on the 7x7 camera block and 0 times identity on
the landmark blocks. -/
theorem C5_predict_inflates_covariance (K : Type) [LinearOrderedField K]
    (e : EKF K) (hwf : e.wf) : predictSpec K e := by
  obtain ⟨hs, hu, hrows⟩ := hwf
  unfold predictSpec
  refine ⟨rfl, rfl, ?_, ?_⟩
  · show (matAddL _ _).length = _
    unfold matAddL qMat
    rw [List.length_zipWith, hu, List.length_map, List.length_range]
    omega
  · intro i j hi hj
    have hrowi : (e.uncertainty.getD i []).length = LM_DIMS * e.num_landmarks + CAM_DIMS := by
      exact hrows _ (getD_mem_of_lt _ _ _ (by rw [hu]; exact hi))
    show idxL (matAddL _ _) i j = _
    unfold idxL matAddL
    rw [getD_zipWith _ _ _ _ [] [] [] (by rw [hu]; exact hi)
        (by unfold qMat; rw [List.length_map, List.length_range]; exact hi)]
    unfold addV
    rw [getD_zipWith _ _ _ _ 0 0 0 (by rw [hrowi]; exact hj)
        (by
          have := idxL_grid (K := K)
          unfold qMat
          rw [getD_map_range _ _ _ _ hi, List.length_map, List.length_range]
          exact hj)]
    congr 1
    show idxL (qMat K e.num_landmarks) i j = _
    unfold qMat
    rw [idxL_grid _ _ _ _ hi hj]
    rcases eq_or_ne i j with rfl | hne
    · by_cases hlt : i < CAM_DIMS
      · simp [hlt]
      · simp [hlt, Nat.le_of_not_lt hlt]
    · simp [hne]

/-- C5 witness: the specification holds concretely for the fresh
filter. -/
theorem C5_predict_inflates_covariance_witness :
    ekf0.wf ∧ predictSpec ℚ ekf0 :=
  ⟨by decide, C5_predict_inflates_covariance ℚ ekf0 (by decide)⟩

end ClaimC5

section NormHelpers

variable {K : Type} [LinearOrderedField K]

theorem sumSq_map_div (v : List K) (c : K) :
    sumSq (v.map (fun x => x / c)) = sumSq v / (c * c) := by
  induction v with
  | nil => simp [sumSq]
  | cons x xs ih =>
    unfold sumSq at ih ⊢
    simp only [List.map_cons, List.sum_cons]
    rw [ih, div_mul_div_comm, div_add_div_same]

theorem sumSq_ne_zero_of_ne4 (v : List K) (h4 : v.length = 4)
    (hv : v ≠ [0, 0, 0, 0]) : sumSq v ≠ 0 := by
  intro h
  apply hv
  rcases v with - | ⟨a, v⟩
  · simp at h4
  rcases v with - | ⟨b, v⟩
  · simp at h4
  rcases v with - | ⟨c, v⟩
  · simp at h4
  rcases v with - | ⟨d, v⟩
  · simp at h4
  rcases v with - | ⟨x, v⟩
  swap
  · simp at h4
  unfold sumSq at h
  simp only [List.map_cons, List.map_nil, List.sum_cons, List.sum_nil, add_zero] at h
  have ha : a = 0 := by
    nlinarith [mul_self_nonneg a, mul_self_nonneg b, mul_self_nonneg c, mul_self_nonneg d]
  have hb : b = 0 := by
    nlinarith [mul_self_nonneg a, mul_self_nonneg b, mul_self_nonneg c, mul_self_nonneg d]
  have hc : c = 0 := by
    nlinarith [mul_self_nonneg a, mul_self_nonneg b, mul_self_nonneg c, mul_self_nonneg d]
  have hd : d = 0 := by
    nlinarith [mul_self_nonneg a, mul_self_nonneg b, mul_self_nonneg c, mul_self_nonneg d]
  rw [ha, hb, hc, hd]

theorem quatBlock_normalizeQuat (sq : K → K) (st : List K)
    (h7 : CAM_DIMS ≤ st.length) :
    ((normalizeQuat sq st).drop XYZ_DIMS).take (CAM_DIMS - XYZ_DIMS) =
      ((st.drop XYZ_DIMS).take (CAM_DIMS - XYZ_DIMS)).map
        (fun x => x /
          sq (sumSq ((st.drop XYZ_DIMS).take (CAM_DIMS - XYZ_DIMS)))) := by
  simp only [CAM_DIMS, XYZ_DIMS] at h7 ⊢
  unfold normalizeQuat
  simp only [CAM_DIMS, XYZ_DIMS]
  rw [List.append_assoc, List.drop_left' (by rw [List.length_take]; omega),
    List.take_left' (by rw [List.length_map, List.length_take, List.length_drop]; omega)]

end NormHelpers

section ClaimC4

/-- C4: after every observe call on a non-empty observation batch that
completes without error, the camera quaternion block (state components
3..6) has unit norm — its sum of squares is exactly 1 — provided that
block was non-zero before the renormalisation (`hv`) and that `sq`
behaves as a square root at the one point where update evaluates it
(`hsq`; automatic over the reals, exact over the rationals whenever the
argument is a rational square). -/
theorem C4_observe_unit_quaternion (K : Type) [LinearOrderedField K] (sq : K → K)
    (e : EKF K) (ids : List Int) (poses : List (List K)) (st1 : List K)
    (hpre : e.preNormState sq ids poses = some st1)
    (hlen : CAM_DIMS ≤ st1.length)
    (hv : (st1.drop XYZ_DIMS).take (CAM_DIMS - XYZ_DIMS) ≠ [0, 0, 0, 0])
    (hsq : sq (sumSq ((st1.drop XYZ_DIMS).take (CAM_DIMS - XYZ_DIMS))) *
        sq (sumSq ((st1.drop XYZ_DIMS).take (CAM_DIMS - XYZ_DIMS))) =
        sumSq ((st1.drop XYZ_DIMS).take (CAM_DIMS - XYZ_DIMS))) :
    ∀ r, e.observe sq ids poses = .ok r →
      sumSq ((r.1.state.drop XYZ_DIMS).take (CAM_DIMS - XYZ_DIMS)) = 1 := by
  intro r hobs
  unfold EKF.preNormState at hpre
  unfold EKF.observe EKF.update at hobs
  rcases hcore :
      ((ids.zip poses).foldl EKF.registerStep e).predict.updateCore ids poses with
    er | p
  · rw [hcore] at hpre
    simp [Except.map, Except.toOption] at hpre
  · rw [hcore] at hpre hobs
    simp only [Except.map, Except.toOption, Option.some.injEq] at hpre
    simp only [Except.map, Except.ok.injEq] at hobs
    rw [← hobs]
    show sumSq (List.take (CAM_DIMS - XYZ_DIMS)
      (List.drop XYZ_DIMS (normalizeQuat sq p.1))) = 1
    rw [hpre, quatBlock_normalizeQuat sq st1 hlen, sumSq_map_div, hsq]
    apply div_self
    apply sumSq_ne_zero_of_ne4 _ _ hv
    rw [List.length_take, List.length_drop]
    simp only [CAM_DIMS, XYZ_DIMS] at hlen ⊢
    omega

set_option maxRecDepth 100000 in
/-- C4 witness: the concrete pipeline observing marker 1 from the
fresh filter satisfies all hypotheses, so its resulting quaternion
block has unit norm. -/
theorem C4_observe_unit_quaternion_witness :
    (ekf0.preNormState ratSqrt [1] [pose1] = some [0, 0, 0, 0, 0, 0, 1, 0, 0, 1]) ∧
    (CAM_DIMS ≤ (10 : ℕ)) ∧
    ((([0, 0, 0, 0, 0, 0, 1, 0, 0, 1] :
        List ℚ).drop XYZ_DIMS).take (CAM_DIMS - XYZ_DIMS) ≠ [0, 0, 0, 0]) ∧
    (ratSqrt (sumSq ((([0, 0, 0, 0, 0, 0, 1, 0, 0, 1] :
          List ℚ).drop XYZ_DIMS).take (CAM_DIMS - XYZ_DIMS))) *
        ratSqrt (sumSq ((([0, 0, 0, 0, 0, 0, 1, 0, 0, 1] :
          List ℚ).drop XYZ_DIMS).take (CAM_DIMS - XYZ_DIMS))) =
        sumSq ((([0, 0, 0, 0, 0, 0, 1, 0, 0, 1] :
          List ℚ).drop XYZ_DIMS).take (CAM_DIMS - XYZ_DIMS))) ∧
    (∀ r, ekf0.observe ratSqrt [1] [pose1] = .ok r →
      sumSq ((r.1.state.drop XYZ_DIMS).take (CAM_DIMS - XYZ_DIMS)) = 1) :=
  ⟨by decide, by decide, by decide, by decide,
    C4_observe_unit_quaternion ℚ ratSqrt ekf0 [1] [pose1]
      [0, 0, 0, 0, 0, 0, 1, 0, 0, 1] (by decide) (by decide) (by decide) (by decide)⟩

end ClaimC4

section IdentityQuatHelpers

variable {K : Type} [LinearOrderedField K]

theorem range1 : List.range 1 = [0] := rfl

theorem range2 : List.range 2 = [0, 1] := rfl

theorem range3 : List.range 3 = [0, 1, 2] := rfl

theorem rotM_idq : rotM ([0, 0, 0, 1] : List K) = [[1, 0, 0], [0, 1, 0], [0, 0, 1]] := by
  norm_num [rotM, qSq, nMat, smulL]

set_option maxHeartbeats 1000000 in
theorem matInvL_id3 :
    matInvL ([[1, 0, 0], [0, 1, 0], [0, 0, 1]] : List (List K)) =
      [[1, 0, 0], [0, 1, 0], [0, 0, 1]] := by
  norm_num [matInvL, detL, detAux, adjugateL, dropIdx, smulL, range1, range2, range3]

theorem matVecL_id3 (v1 v2 v3 : K) :
    matVecL ([[1, 0, 0], [0, 1, 0], [0, 0, 1]] : List (List K)) [v1, v2, v3] =
      [v1, v2, v3] := by
  norm_num [matVecL, dotL]

theorem hFun_identity_quat (c1 c2 c3 l1 l2 l3 : K) :
    hFun [c1, c2, c3, 0, 0, 0, 1, l1, l2, l3] = [l1 - c1, l2 - c2, l3 - c3] := by
  show matVecL (matInvL (rotM [0, 0, 0, 1])) [l1 - c1, l2 - c2, l3 - c3] = _
  rw [rotM_idq, matInvL_id3, matVecL_id3]

end IdentityQuatHelpers

section ClaimC10

/-- C10: when the camera orientation quaternion is the identity
(0, 0, 0, 1), the map-frame conversion of add_marker and the
measurement model h are mutual inverses: evaluating h on the camera
state together with the landmark block that add_marker just appended
returns exactly the observed translation p[:3]. -/
theorem C10_h_inverts_registration (K : Type) [LinearOrderedField K]
    (e : EKF K) (idx : Int) (u : Option K) (t1 t2 t3 p1 p2 p3 : K)
    (rest prest : List K)
    (hstate : e.state = t1 :: t2 :: t3 :: 0 :: 0 :: 0 :: 1 :: rest) :
    hFun ((e.add_marker idx (p1 :: p2 :: p3 :: prest) u).state.take CAM_DIMS ++
        (e.add_marker idx (p1 :: p2 :: p3 :: prest) u).state.drop e.state.length) =
      [p1, p2, p3] := by
  have hst : (e.add_marker idx (p1 :: p2 :: p3 :: prest) u).state =
      e.state ++
        addV (matVecL (matInvL (rotM ((e.state.take CAM_DIMS).drop XYZ_DIMS)))
          [p1, p2, p3]) ((e.state.take CAM_DIMS).take XYZ_DIMS) := rfl
  rw [hst, hstate, List.drop_left]
  show hFun ((t1 :: t2 :: t3 :: (0 : K) :: 0 :: 0 :: 1 :: rest).take CAM_DIMS ++
      addV (matVecL (matInvL (rotM [0, 0, 0, 1])) [p1, p2, p3]) [t1, t2, t3]) =
    [p1, p2, p3]
  rw [rotM_idq, matInvL_id3, matVecL_id3]
  show hFun [t1, t2, t3, 0, 0, 0, 1, p1 + t1, p2 + t2, p3 + t3] = [p1, p2, p3]
  rw [hFun_identity_quat]
  norm_num

/-- C10 witness: concretely, registering marker 7 with observed
translation (0, 0, 1) on the fresh identity-orientation filter and
evaluating h on the camera block plus the new landmark block returns
(0, 0, 1). -/
theorem C10_h_inverts_registration_witness :
    (ekf0.state = 0 :: 0 :: 0 :: 0 :: 0 :: 0 :: 1 :: []) ∧
    hFun ((ekf0.add_marker 7 (0 :: 0 :: 1 :: [0, 0, 0, 1]) none).state.take CAM_DIMS ++
        (ekf0.add_marker 7 (0 :: 0 :: 1 :: [0, 0, 0, 1]) none).state.drop
          ekf0.state.length) =
      [0, 0, 1] :=
  ⟨by decide,
    C10_h_inverts_registration ℚ ekf0 7 none 0 0 0 0 0 1 [] [0, 0, 0, 1] (by decide)⟩

end ClaimC10

section ClaimC6

/-- C6: in exact arithmetic, one predict step followed by one update
step whose innovation-covariance solve succeeds (`hs` says sInv is the
result of the solve `s * sInv = 1`) maps a symmetric covariance to a
symmetric covariance. -/
theorem C6_predict_update_keeps_symmetry (K : Type) [LinearOrderedField K]
    {m n : ℕ} (P : Matrix (Fin n) (Fin n) K) (dh : Matrix (Fin m) (Fin n) K)
    (sInv : Matrix (Fin m) (Fin m) K)
    (hP : P.transpose = P)
    (hs : innovCovM (predictCovM P) dh * sInv = 1) :
    (updateCovM (predictCovM P) dh sInv).transpose =
      updateCovM (predictCovM P) dh sInv := by
  set Q := predictCovM P with hQ
  have hQt : Q.transpose = Q := by
    rw [hQ]
    unfold predictCovM processNoiseM
    rw [Matrix.transpose_add, hP]
    congr 1
    ext i j
    simp only [Matrix.transpose_apply, Matrix.of_apply]
    rcases eq_or_ne i j with rfl | hne
    · rfl
    · rw [if_neg hne, if_neg (Ne.symm hne)]
  have hSt : (innovCovM Q dh).transpose = innovCovM Q dh := by
    unfold innovCovM
    rw [Matrix.transpose_add, Matrix.transpose_smul, Matrix.transpose_one,
      Matrix.transpose_mul, Matrix.transpose_mul, Matrix.transpose_transpose, hQt,
      Matrix.mul_assoc]
  have h1 : sInv.transpose * innovCovM Q dh = 1 := by
    rw [← hSt, ← Matrix.transpose_mul, hs, Matrix.transpose_one]
  have hsInvT : sInv.transpose = sInv := by
    calc sInv.transpose = sInv.transpose * (innovCovM Q dh * sInv) := by
          rw [hs, mul_one]
      _ = sInv.transpose * innovCovM Q dh * sInv := by rw [Matrix.mul_assoc]
      _ = sInv := by rw [h1, one_mul]
  unfold updateCovM kalmanGainM
  rw [sub_mul, one_mul, Matrix.transpose_sub, hQt]
  congr 1
  simp [Matrix.transpose_mul, Matrix.transpose_transpose, hQt, hsInvT,
    Matrix.mul_assoc]

set_option maxRecDepth 1000000 in
/-- C6 witness: at dimension 10 (one landmark) with covariance the
identity, an all-zero measurement Jacobian and the exact solve result
(10/9) I, the hypotheses hold and the predict-update covariance is
symmetric. -/
theorem C6_predict_update_keeps_symmetry_witness :
    ((1 : Matrix (Fin 10) (Fin 10) ℚ).transpose = 1) ∧
    (innovCovM (predictCovM (1 : Matrix (Fin 10) (Fin 10) ℚ))
        (0 : Matrix (Fin 3) (Fin 10) ℚ) * ((10 / 9 : ℚ) • 1) = 1) ∧
    ((updateCovM (predictCovM (1 : Matrix (Fin 10) (Fin 10) ℚ))
        (0 : Matrix (Fin 3) (Fin 10) ℚ) ((10 / 9 : ℚ) • 1)).transpose =
      updateCovM (predictCovM (1 : Matrix (Fin 10) (Fin 10) ℚ))
        (0 : Matrix (Fin 3) (Fin 10) ℚ) ((10 / 9 : ℚ) • 1)) :=
  ⟨by decide, by decide,
    C6_predict_update_keeps_symmetry ℚ 1 0 ((10 / 9 : ℚ) • 1) (by decide) (by decide)⟩

end ClaimC6

section ClaimC9

/-- C9: the Kalman correction is invariant under permuting the stacked
observation rows.  For any row permutation e of the stacked matrices
(z, h, dh) built by parse_poses — permuting the (id, pose) pairs of a
fully-registered batch permutes those stacks blockwise — the update
with the permuted stacks and its own solve result sInv2 produces
exactly the same state correction and the same covariance as the
unpermuted update. -/
theorem C9_update_permutation_invariant (K : Type) [LinearOrderedField K]
    {m n : ℕ} (P : Matrix (Fin n) (Fin n) K) (dh : Matrix (Fin m) (Fin n) K)
    (z h : Fin m → K) (sInv sInv2 : Matrix (Fin m) (Fin m) K)
    (e : Equiv.Perm (Fin m))
    (hs : innovCovM P dh * sInv = 1)
    (hs2 : innovCovM P (dh.submatrix e id) * sInv2 = 1) :
    stateDeltaM P (dh.submatrix e id) sInv2 (z ∘ e) (h ∘ e) =
      stateDeltaM P dh sInv z h ∧
    updateCovM P (dh.submatrix e id) sInv2 = updateCovM P dh sInv := by
  have hS2 : innovCovM P (dh.submatrix e id) = (innovCovM P dh).submatrix e e := by
    unfold innovCovM
    ext i j
    simp [Matrix.mul_apply, Matrix.submatrix_apply, Matrix.transpose_apply,
      Matrix.add_apply, Matrix.smul_apply, Matrix.one_apply, e.injective.eq_iff,
      Matrix.smul_apply]
  have hsInv2' : innovCovM P (dh.submatrix e id) * sInv.submatrix e e = 1 := by
    rw [hS2]
    have hmul : (innovCovM P dh).submatrix e e * sInv.submatrix e e =
        ((innovCovM P dh) * sInv).submatrix e e := by
      ext i j
      simp only [Matrix.mul_apply, Matrix.submatrix_apply]
      exact Equiv.sum_comp e (fun k => innovCovM P dh (e i) k * sInv k (e j))
    rw [hmul, hs]
    exact Matrix.submatrix_one_equiv e
  have huniq : sInv2 = sInv.submatrix e e := by
    have h1 : sInv2 * innovCovM P (dh.submatrix e id) = 1 :=
      Matrix.mul_eq_one_comm.mp hs2
    calc sInv2 = sInv2 * (innovCovM P (dh.submatrix e id) * sInv.submatrix e e) := by
          rw [hsInv2', mul_one]
      _ = sInv2 * innovCovM P (dh.submatrix e id) * sInv.submatrix e e := by
          rw [Matrix.mul_assoc]
      _ = sInv.submatrix e e := by rw [h1, one_mul]
  have hK : kalmanGainM P (dh.submatrix e id) sInv2 =
      (kalmanGainM P dh sInv).submatrix id e := by
    rw [huniq]
    unfold kalmanGainM
    rw [Matrix.transpose_submatrix]
    ext i j
    simp only [Matrix.mul_apply, Matrix.submatrix_apply, id_eq]
    exact Equiv.sum_comp e
      (fun k => (Finset.univ.sum fun l => P i l * dh.transpose l k) * sInv k (e j))
  constructor
  · unfold stateDeltaM
    rw [hK, show (z ∘ e - h ∘ e) = (z - h) ∘ e from rfl]
    ext i
    simp only [Matrix.mulVec, Matrix.dotProduct, Matrix.submatrix_apply,
      Function.comp_apply, id_eq]
    exact Equiv.sum_comp e (fun k => kalmanGainM P dh sInv i k * (z - h) k)
  · unfold updateCovM
    rw [hK]
    have hKdh : (kalmanGainM P dh sInv).submatrix id e * dh.submatrix e id =
        kalmanGainM P dh sInv * dh := by
      ext i j
      simp only [Matrix.mul_apply, Matrix.submatrix_apply, id_eq]
      exact Equiv.sum_comp e (fun k => kalmanGainM P dh sInv i k * dh k j)
    rw [hKdh]

set_option maxRecDepth 1000000 in
/-- C9 witness: at dimensions m = 3, n = 10 with identity covariance,
zero Jacobian, the swap of the first two observation rows, and the
exact solve results on both sides, the permuted and unpermuted updates
agree. -/
theorem C9_update_permutation_invariant_witness :
    (innovCovM (1 : Matrix (Fin 10) (Fin 10) ℚ) (0 : Matrix (Fin 3) (Fin 10) ℚ) *
        ((10 / 9 : ℚ) • 1) = 1) ∧
    (innovCovM (1 : Matrix (Fin 10) (Fin 10) ℚ)
        ((0 : Matrix (Fin 3) (Fin 10) ℚ).submatrix (Equiv.swap (0 : Fin 3) 1) id) *
        ((10 / 9 : ℚ) • 1) = 1) ∧
    (stateDeltaM (1 : Matrix (Fin 10) (Fin 10) ℚ)
        ((0 : Matrix (Fin 3) (Fin 10) ℚ).submatrix (Equiv.swap (0 : Fin 3) 1) id)
        ((10 / 9 : ℚ) • 1) ((fun _ : Fin 3 => (0 : ℚ)) ∘ (Equiv.swap (0 : Fin 3) 1))
        ((fun _ : Fin 3 => (1 : ℚ)) ∘ (Equiv.swap (0 : Fin 3) 1)) =
      stateDeltaM (1 : Matrix (Fin 10) (Fin 10) ℚ) (0 : Matrix (Fin 3) (Fin 10) ℚ)
        ((10 / 9 : ℚ) • 1) (fun _ : Fin 3 => (0 : ℚ)) (fun _ : Fin 3 => (1 : ℚ)) ∧
    updateCovM (1 : Matrix (Fin 10) (Fin 10) ℚ)
        ((0 : Matrix (Fin 3) (Fin 10) ℚ).submatrix (Equiv.swap (0 : Fin 3) 1) id)
        ((10 / 9 : ℚ) • 1) =
      updateCovM (1 : Matrix (Fin 10) (Fin 10) ℚ) (0 : Matrix (Fin 3) (Fin 10) ℚ)
        ((10 / 9 : ℚ) • 1)) :=
  ⟨by decide, by decide,
    C9_update_permutation_invariant ℚ (1 : Matrix (Fin 10) (Fin 10) ℚ)
      (0 : Matrix (Fin 3) (Fin 10) ℚ) (fun _ : Fin 3 => (0 : ℚ))
      (fun _ : Fin 3 => (1 : ℚ)) ((10 / 9 : ℚ) • 1) ((10 / 9 : ℚ) • 1)
      (Equiv.swap (0 : Fin 3) 1) (by decide) (by decide)⟩

end ClaimC9

end ArucoSlam
